import Mathlib

/-!
Verification of the refer semantic-search pipeline against its
natural-language specification.  The Go sources are shallowly embedded:
file and web contents become explicit byte lists, the SQLite documents
table becomes a list of rows, the embedding HTTP client becomes an
oracle function supplied through a `World` record, and goroutine
scheduling in the ingestion worker pool becomes an explicit processing
order constrained to be a permutation of the submitted paths.
-/

namespace Refer

/-- A row of the documents table: filepath (the unique key), content
bytes, title and the stored embedding vector
(sqlite_vec serialization is modelled as the vector itself). -/
structure Row where
  path : String
  content : List Nat
  title : String
  embedding : List Int
deriving DecidableEq, Repr

/-- What a path resolves to in the outside world, covering every branch
of fileutil.AddDocument: a remote URL fetch (content and title, or a
fetch error), a stat failure, a directory, or a regular local file.
A local file carries two independent read outcomes because the Go code
calls os.ReadFile twice: once inside IsTextFile (the content sniff) and
once to load the content that is stored. -/
inductive Resolution where
  | remote (fetched : Except String (List Nat × String))
  | statErr (msg : String)
  | directory
  | localFile (sniff : Except String (List Nat)) (contentRead : Except String (List Nat))

/-- The ambient world: how paths resolve, and the embedding collaborator
embed(text) = vector or an error (wrong dimension, HTTP failure). -/
structure World where
  resolve : String → Resolution
  embed : List Nat → Except String (List Int)

/-- Port of isPrintable from fileutil.go: ASCII printable range or the
Latin-1 supplement range 192-255. -/
def isPrintable (b : Nat) : Bool :=
  (32 ≤ b && b ≤ 126) || (192 ≤ b && b ≤ 255)

/-- Port of IsTextFile from fileutil.go, applied to the bytes that
os.ReadFile returned: an empty file is text; otherwise only the first
512 bytes are scanned, and the file is binary when some scanned byte is
NUL or is above 127 without being printable. -/
def IsTextFile (data : List Nat) : Bool :=
  if data.length = 0 then
    true
  else
    !((data.take 512).any fun b => b == 0 || (127 < b && !isPrintable b))

/-- IsTextFile including the read it performs: a read failure makes the
Go function return false (classified binary). -/
def isTextFileOutcome : Except String (List Nat) → Bool
  | .error _ => false
  | .ok data => IsTextFile data

/-- The scan condition on a single byte, restated as a proposition:
NUL, or above 127 while outside the Latin-1 supplement range. -/
lemma badByte_iff (b : Nat) :
    (b == 0 || (127 < b && !isPrintable b)) = true ↔
      (b = 0 ∨ (127 < b ∧ ¬(192 ≤ b ∧ b ≤ 255))) := by
  by_cases h0 : b = 0
  · subst h0; simp
  by_cases h1 : 127 < b
  · by_cases h2 : 192 ≤ b ∧ b ≤ 255
    · have hpr : isPrintable b = true := by
        simp only [isPrintable, Bool.or_eq_true, Bool.and_eq_true,
          decide_eq_true_eq]
        omega
      simp [h0, h1, h2, hpr]
    · have hpr : isPrintable b = false := by
        simp only [isPrintable, Bool.or_eq_false_iff, Bool.and_eq_false_iff,
          decide_eq_false_iff_not]
        omega
      simp [h0, h1, h2, hpr]
  · have hpr : (127 < b) = False := by simp [h1]
    simp [h0, h1, hpr]

/-- Claim C5: the binary/text classification inspects only the first
min(512, length) bytes, and classifies the file binary exactly when some
inspected byte is 0x00, or is greater than 127 and outside 192-255. -/
theorem isTextFile_classification (data : List Nat) :
    IsTextFile data = IsTextFile (data.take 512) ∧
    (IsTextFile data = false ↔
      ∃ b ∈ data.take 512, b = 0 ∨ (127 < b ∧ ¬(192 ≤ b ∧ b ≤ 255))) := by
  constructor
  · by_cases h : data.length = 0
    · have : data = [] := List.eq_nil_of_length_eq_zero h
      subst this; rfl
    · have htk : (data.take 512).length ≠ 0 := by
        rw [List.length_take]
        omega
      simp only [IsTextFile, if_neg h, if_neg htk, List.take_take,
        Nat.min_self]
  · by_cases h : data.length = 0
    · have : data = [] := List.eq_nil_of_length_eq_zero h
      subst this
      simp [IsTextFile]
    · have hstep : IsTextFile data =
        (!((data.take 512).any fun b =>
          b == 0 || (127 < b && !isPrintable b))) := by
        rw [IsTextFile, if_neg h]
      rw [hstep, Bool.not_eq_false', List.any_eq_true]
      constructor
      · rintro ⟨b, hb, hp⟩
        exact ⟨b, hb, (badByte_iff b).1 hp⟩
      · rintro ⟨b, hb, hp⟩
        exact ⟨b, hb, (badByte_iff b).2 hp⟩

/-- Outcome of one AddDocument call: the documents table afterwards, the
returned error (ok also covers the directory and binary skip cases, which
return nil in Go), and how many embedding-service calls were made. -/
structure AddOutcome where
  store : List Row
  result : Except String Unit
  embedCalls : Nat

/-- The exists-check followed by DELETE FROM documents WHERE filepath = ?
from fileutil.AddDocument. -/
def deleteByPath (store : List Row) (path : String) : List Row :=
  if store.any (fun r => r.path == path) then
    store.filter (fun r => !(r.path == path))
  else
    store

/-- Embedding generation, serialization and the delete-then-insert upsert:
the tail of fileutil.AddDocument once content and title are in hand. -/
def embedAndUpsert (w : World) (store : List Row) (path : String)
    (content : List Nat) (title : String) : AddOutcome :=
  match w.embed content with
  | .error msg => ⟨store, .error ("failed to create embedding: " ++ msg), 1⟩
  | .ok vec =>
      ⟨deleteByPath store path ++ [⟨path, content, title, vec⟩], .ok (), 1⟩

/-- Port of fileutil.AddDocument: URL fetch with title fallback, or stat,
directory and text-file checks followed by the content read; then embed
and upsert.  A directory or a binary-classified file returns nil without
touching the store or the embedding service. -/
def AddDocument (w : World) (store : List Row) (path : String) : AddOutcome :=
  match w.resolve path with
  | .remote (.error msg) =>
      ⟨store, .error ("failed to fetch URL " ++ path ++ ": " ++ msg), 0⟩
  | .remote (.ok (content, title)) =>
      embedAndUpsert w store path content
        (if title == "" then path else title)
  | .statErr msg =>
      ⟨store, .error ("failed to stat file " ++ path ++ ": " ++ msg), 0⟩
  | .directory => ⟨store, .ok (), 0⟩
  | .localFile sniff contentRead =>
      if isTextFileOutcome sniff then
        match contentRead with
        | .error msg => ⟨store, .error ("failed to read file: " ++ msg), 0⟩
        | .ok data => embedAndUpsert w store path data path
      else
        ⟨store, .ok (), 0⟩

/-- The content AddDocument would ingest for a path, when the fetch phase
produces one: remote content on a successful URL fetch, or the file
bytes of a readable text-classified local file. -/
def fetchedContent (w : World) (path : String) : Option (List Nat) :=
  match w.resolve path with
  | .remote (.ok (content, _)) => some content
  | .localFile sniff (.ok data) =>
      if isTextFileOutcome sniff then some data else none
  | _ => none

/-- Rows surviving deleteByPath never match the deleted path. -/
lemma deleteByPath_filter (store : List Row) (p : String) :
    (deleteByPath store p).filter (fun r => r.path == p) = [] := by
  rw [deleteByPath]
  split
  · rw [List.filter_eq_nil_iff]
    intro r hr
    have h2 := (List.mem_filter.mp hr).2
    simp only [Bool.not_eq_true'] at h2
    simp [h2]
  · next hany =>
    rw [List.filter_eq_nil_iff]
    intro r hr hcon
    exact hany (List.any_eq_true.2 ⟨r, hr, hcon⟩)

/-- After the upsert the rows for the path are exactly the new row. -/
lemma upsert_filter (store : List Row) (p : String) (c : List Nat)
    (t : String) (v : List Int) :
    ((deleteByPath store p ++ [Row.mk p c t v]).filter
      (fun r => r.path == p)) = [Row.mk p c t v] := by
  rw [List.filter_append, deleteByPath_filter]
  simp

/-- Claim C1: when AddDocument succeeds after fetching content c for path
p, the resulting table has exactly one row for p and it carries c; and
one upsert-by-path never pushes the number of rows for p above one, so
re-running AddDocument(p) any number of times cannot create a second
row. -/
theorem addDocument_upsert_unique (w : World) (store : List Row)
    (p : String) (c : List Nat)
    (h1 : fetchedContent w p = some c)
    (h2 : (AddDocument w store p).result = .ok ()) :
    (∃ t v, (AddDocument w store p).store.filter
        (fun r => r.path == p) = [⟨p, c, t, v⟩]) ∧
    (AddDocument w store p).store.countP (fun r => r.path == p) = 1 ∧
    (∀ (w2 : World) (s2 : List Row),
      s2.countP (fun r => r.path == p) ≤ 1 →
      (AddDocument w2 s2 p).store.countP (fun r => r.path == p) ≤ 1) := by
  have main : ∃ t v, (AddDocument w store p).store.filter
      (fun r => r.path == p) = [⟨p, c, t, v⟩] := by
    cases hres : w.resolve p with
    | remote fetched =>
        cases fetched with
        | error msg => simp [fetchedContent, hres] at h1
        | ok ct =>
            obtain ⟨content, title⟩ := ct
            have hc : content = c := by
              simpa [fetchedContent, hres] using h1
            subst hc
            cases hemb : w.embed content with
            | error msg =>
                rw [AddDocument] at h2
                simp [hres, embedAndUpsert, hemb] at h2
            | ok vec =>
                refine ⟨if title == "" then p else title, vec, ?_⟩
                simp only [AddDocument, hres, embedAndUpsert, hemb]
                exact upsert_filter store p content _ vec
    | statErr msg => simp [fetchedContent, hres] at h1
    | directory => simp [fetchedContent, hres] at h1
    | localFile sniff contentRead =>
        cases contentRead with
        | error msg => simp [fetchedContent, hres] at h1
        | ok data =>
            cases hsn : isTextFileOutcome sniff with
            | false => simp [fetchedContent, hres, hsn] at h1
            | true =>
                have hc : data = c := by
                  simpa [fetchedContent, hres, hsn] using h1
                subst hc
                cases hemb : w.embed data with
                | error msg =>
                    rw [AddDocument] at h2
                    simp [hres, hsn, embedAndUpsert, hemb] at h2
                | ok vec =>
                    refine ⟨p, vec, ?_⟩
                    simp only [AddDocument, hres, hsn, if_true,
                      embedAndUpsert, hemb]
                    exact upsert_filter store p data p vec
  refine ⟨main, ?_, ?_⟩
  · obtain ⟨t, v, hf⟩ := main
    rw [List.countP_eq_length_filter, hf]
    rfl
  · intro w2 s2 hs2
    cases hres : w2.resolve p with
    | remote fetched =>
        cases fetched with
        | error msg => rw [AddDocument]; simpa [hres] using hs2
        | ok ct =>
            obtain ⟨content, title⟩ := ct
            cases hemb : w2.embed content with
            | error msg =>
                rw [AddDocument]
                simpa [hres, embedAndUpsert, hemb] using hs2
            | ok vec =>
                rw [AddDocument]
                simp only [hres, embedAndUpsert, hemb]
                rw [List.countP_eq_length_filter, upsert_filter]
                exact le_refl 1
    | statErr msg => rw [AddDocument]; simpa [hres] using hs2
    | directory => rw [AddDocument]; simpa [hres] using hs2
    | localFile sniff contentRead =>
        cases hsn : isTextFileOutcome sniff with
        | false => rw [AddDocument]; simpa [hres, hsn] using hs2
        | true =>
            cases contentRead with
            | error msg => rw [AddDocument]; simpa [hres, hsn] using hs2
            | ok data =>
                cases hemb : w2.embed data with
                | error msg =>
                    rw [AddDocument]
                    simpa [hres, hsn, embedAndUpsert, hemb] using hs2
                | ok vec =>
                    rw [AddDocument]
                    simp only [hres, hsn, if_true, embedAndUpsert, hemb]
                    rw [List.countP_eq_length_filter, upsert_filter]
                    exact le_refl 1

/-- A concrete world for witnesses: every path resolves to a readable
two-byte text file and the embedding service returns the vector [7]. -/
def wText : World :=
  ⟨fun _ => .localFile (.ok [104, 105]) (.ok [104, 105]), fun _ => .ok [7]⟩

/-- Witness for claim C1 at a concrete world: a readable two-byte text
file is added over a table that already holds a row for the same path. -/
theorem addDocument_upsert_unique_witness :
    fetchedContent wText "a.txt" = some [104, 105] ∧
    (AddDocument wText [⟨"a.txt", [1], "old", [9]⟩] "a.txt").result =
      .ok () ∧
    (∃ t v, (AddDocument wText
        [⟨"a.txt", [1], "old", [9]⟩] "a.txt").store.filter
          (fun r => r.path == "a.txt") = [⟨"a.txt", [104, 105], t, v⟩]) := by
  refine ⟨rfl, rfl, ?_⟩
  exact (addDocument_upsert_unique wText [⟨"a.txt", [1], "old", [9]⟩]
    "a.txt" [104, 105] rfl rfl).1

/-- Claim C6: a directory or a binary-classified file is a non-error
skip: AddDocument returns ok, leaves the table untouched and performs no
embedding call.  A stat failure, or a read failure on a text-classified
file, is returned as an error for the item, again without touching the
table or the embedding service; no other fetch-phase outcome errors. -/
theorem addDocument_skip_semantics (w : World) (store : List Row)
    (p msg : String) (sniff contentRead : Except String (List Nat)) :
    (w.resolve p = .directory →
      AddDocument w store p = ⟨store, .ok (), 0⟩) ∧
    (w.resolve p = .localFile sniff contentRead →
      isTextFileOutcome sniff = false →
      AddDocument w store p = ⟨store, .ok (), 0⟩) ∧
    (w.resolve p = .statErr msg →
      AddDocument w store p =
        ⟨store, .error ("failed to stat file " ++ p ++ ": " ++ msg), 0⟩) ∧
    (w.resolve p = .localFile sniff (.error msg) →
      isTextFileOutcome sniff = true →
      AddDocument w store p =
        ⟨store, .error ("failed to read file: " ++ msg), 0⟩) := by
  refine ⟨?_, ?_, ?_, ?_⟩
  · intro h; simp [AddDocument, h]
  · intro h hsn; simp [AddDocument, h, hsn]
  · intro h; simp [AddDocument, h]
  · intro h hsn; simp [AddDocument, h, hsn]

/-- A concrete world for witnesses: every path resolves to a directory. -/
def wDir : World := ⟨fun _ => .directory, fun _ => .ok [7]⟩

/-- Witness for claim C6: adding a directory returns ok, changes nothing
and makes no embedding call. -/
theorem addDocument_skip_semantics_witness :
    AddDocument wDir [] "somedir" = ⟨[], .ok (), 0⟩ :=
  (addDocument_skip_semantics wDir [] "somedir" "x"
    (.ok []) (.ok [])).1 rfl

/-- Claim C10: a zero-length file is classified text, and adding it
succeeds and stores a row with empty content instead of skipping. -/
theorem addDocument_empty_file (w : World) (store : List Row) (p : String)
    (v : List Int)
    (h1 : w.resolve p = .localFile (.ok []) (.ok []))
    (h2 : w.embed [] = .ok v) :
    IsTextFile [] = true ∧
    (AddDocument w store p).result = .ok () ∧
    (AddDocument w store p).store.filter (fun r => r.path == p) =
      [⟨p, [], p, v⟩] := by
  have hout : AddDocument w store p =
      ⟨deleteByPath store p ++ [⟨p, [], p, v⟩], .ok (), 1⟩ := by
    simp [AddDocument, h1, isTextFileOutcome, IsTextFile,
      embedAndUpsert, h2]
  refine ⟨rfl, ?_, ?_⟩
  · rw [hout]
  · rw [hout]
    exact upsert_filter store p [] p v

/-- A concrete world for witnesses: every path is an empty readable
file and the embedding service returns the vector [7]. -/
def wEmpty : World :=
  ⟨fun _ => .localFile (.ok []) (.ok []), fun _ => .ok [7]⟩

/-- Witness for claim C10: adding a concrete empty file stores one row
with empty content. -/
theorem addDocument_empty_file_witness :
    wEmpty.resolve "e.txt" = .localFile (.ok []) (.ok []) ∧
    wEmpty.embed [] = .ok [7] ∧
    (AddDocument wEmpty [] "e.txt").result = .ok () ∧
    (AddDocument wEmpty [] "e.txt").store.filter
      (fun r => r.path == "e.txt") = [⟨"e.txt", [], "e.txt", [7]⟩] := by
  have h := addDocument_empty_file wEmpty [] "e.txt" [7] rfl rfl
  exact ⟨rfl, rfl, h.2.1, h.2.2⟩

/-- Per-item outcome of the worker body in AddDocuments: nil on success,
otherwise the error wrapped with the path.  The result of AddDocument
does not depend on the table contents (shown below), so it is computed
against the empty table. -/
def addDocumentErr (w : World) (path : String) : Option String :=
  match (AddDocument w [] path).result with
  | .ok _ => none
  | .error e => some (path ++ ": " ++ e)

/-- The success or failure of AddDocument is independent of the current
table contents: only the fetch and embed outcomes decide it. -/
lemma addDocument_result_indep (w : World) (s : List Row) (p : String) :
    (AddDocument w s p).result = (AddDocument w [] p).result := by
  cases hres : w.resolve p with
  | remote fetched =>
      cases fetched with
      | error msg => simp [AddDocument, hres]
      | ok ct =>
          obtain ⟨content, title⟩ := ct
          cases hemb : w.embed content <;>
            simp [AddDocument, hres, embedAndUpsert, hemb]
  | statErr msg => simp [AddDocument, hres]
  | directory => simp [AddDocument, hres]
  | localFile sniff contentRead =>
      cases hsn : isTextFileOutcome sniff with
      | false => simp [AddDocument, hres, hsn]
      | true =>
          cases contentRead with
          | error msg => simp [AddDocument, hres, hsn]
          | ok data =>
              cases hemb : w.embed data <;>
                simp [AddDocument, hres, hsn, embedAndUpsert, hemb]

/-- Port of AddDocuments: a pool of maxWorkers goroutines (defaulting to
10 when nonpositive) drains the path channel; every path is processed
exactly once and contributes exactly one value to the error channel, and
the returned list keeps the non-nil ones.  Goroutine interleaving is
abstracted as the processing order sched, constrained in the theorems to
be a permutation of the submitted paths; the channel close/WaitGroup
structure guarantees exactly this in the Go code. -/
def AddDocuments (w : World) (paths : List String) (maxWorkers : Int)
    (sched : List String) : List String :=
  let _workers : Int := if maxWorkers ≤ 0 then 10 else maxWorkers
  let _queued := paths
  sched.filterMap (addDocumentErr w)

/-- The length of a filterMap counts the inputs mapped to some value. -/
lemma length_filterMap_eq_countP {α β : Type} (f : α → Option β)
    (l : List α) :
    (l.filterMap f).length = l.countP (fun a => (f a).isSome) := by
  induction l with
  | nil => rfl
  | cons a l ih =>
      cases h : f a <;>
        simp [List.filterMap_cons, h, List.countP_cons, ih]

/-- Claim C4: for any processing order of the submitted paths and any
worker count, AddDocuments returns one error per failed item, so the
length of the error list equals the number of failing paths and does not
depend on the worker count or the interleaving, and the list is empty
exactly when every item succeeded. -/
theorem addDocuments_error_list (w : World) (paths : List String)
    (maxWorkers : Int) (sched : List String)
    (h : sched.Perm paths) :
    (AddDocuments w paths maxWorkers sched).length =
      paths.countP (fun p => (addDocumentErr w p).isSome) ∧
    (AddDocuments w paths maxWorkers sched = [] ↔
      ∀ p ∈ paths, addDocumentErr w p = none) := by
  constructor
  · rw [AddDocuments, length_filterMap_eq_countP]
    exact h.countP_eq _
  · rw [AddDocuments, List.filterMap_eq_nil_iff]
    constructor
    · intro hall p hp
      exact hall p (h.mem_iff.mpr hp)
    · intro hall p hp
      exact hall p (h.mem_iff.mp hp)

/-- Witness for claim C4: two paths processed in reversed order against
a world where everything succeeds yield an empty error list. -/
theorem addDocuments_error_list_witness :
    (["b", "a"] : List String).Perm ["a", "b"] ∧
    (AddDocuments wText ["a", "b"] 5 ["b", "a"]).length =
      (["a", "b"] : List String).countP
        (fun p => (addDocumentErr wText p).isSome) :=
  ⟨by decide,
   (addDocuments_error_list wText ["a", "b"] 5 ["b", "a"] (by decide)).1⟩

/-- Port of the reindex command loop in main.go: fetch the list of
stored documents, then run AddDocument on each stored path against the
live table, counting the embedding-service calls that are made. -/
def Reindex (w : World) (store : List Row) : List Row × Nat :=
  let docs := store.map (fun r => r.path)
  docs.foldl
    (fun acc p =>
      let o := AddDocument w acc.1 p
      (o.store, acc.2 + o.embedCalls))
    (store, 0)

/-- A stored row whose content the filesystem still serves verbatim. -/
def rowUnchanged : Row := ⟨"a.txt", [104, 105], "a.txt", [1]⟩

/-- A world in which the file behind rowUnchanged reads back exactly the
stored bytes, while a fresh embedding call returns the vector [2]. -/
def wUnchanged : World :=
  ⟨fun _ => .localFile (.ok [104, 105]) (.ok [104, 105]),
   fun _ => .ok [2]⟩

/-- Claim C7 evaluated at its failing input: the freshly fetched content
is byte-identical to the stored content, yet Reindex still makes one
embedding-service call for the document and replaces its stored vector
[1] with the freshly computed [2].  The unchanged-content check the
claim describes is recorded as an unimplemented TODO in
fileutil.AddDocument. -/
theorem reindex_reembeds_unchanged_content :
    fetchedContent wUnchanged "a.txt" = some rowUnchanged.content ∧
    (Reindex wUnchanged [rowUnchanged]).2 = 1 ∧
    (Reindex wUnchanged [rowUnchanged]).1 =
      [⟨"a.txt", [104, 105], "a.txt", [2]⟩] ∧
    rowUnchanged.embedding = [1] := by
  refine ⟨rfl, rfl, ?_, rfl⟩
  decide

/-- The persistent store file: the documents virtual table (its
embedding dimension and rows) and the config table; none means the
table has been dropped or never created. -/
structure DBState where
  documents : Option (Nat × List Row)
  config : Option (List (String × String))
deriving DecidableEq, Repr

/-- The fallible SQL statements RecreateDatabase issues, in order. -/
inductive RecreateStep where
  | getPaths
  | dropDocuments
  | dropConfig
  | initDb
deriving DecidableEq, Repr

/-- Port of RecreateDatabase from internal/db.go: read all stored
filepaths, DROP TABLE documents, DROP TABLE config, then InitDatabase
with the new embedding size.  Each statement can fail; failAt injects a
failure at the named step, and the returned state is whatever the
sequence of statements executed so far has left behind — there is no
temporary store and no atomic rename anywhere in the code. -/
def RecreateDatabase (st : DBState) (embeddingSize : Nat)
    (failAt : Option RecreateStep) :
    Except String (List String) × DBState :=
  match st.documents with
  | none => (.error "failed to get existing documents", st)
  | some (_, rows) =>
      if failAt = some .getPaths then
        (.error "failed to get existing documents", st)
      else if failAt = some .dropDocuments then
        (.error "failed to drop existing table", st)
      else
        let st1 : DBState := ⟨none, st.config⟩
        if failAt = some .dropConfig then
          (.error "failed to drop config table", st1)
        else
          let st2 : DBState := ⟨none, none⟩
          if failAt = some .initDb then
            (.error "failed to initialize new database", st2)
          else
            (.ok (rows.map (fun r => r.path)),
             ⟨some (embeddingSize, []), some []⟩)

/-- A populated store about to be reindexed. -/
def dbBefore : DBState :=
  ⟨some (2, [⟨"a.txt", [104, 105], "a.txt", [1]⟩]),
   some [("embedding_model", "m1")]⟩

/-- Claim C2 evaluated at its failing input: when the DROP TABLE config
statement fails, RecreateDatabase returns an error but the documents
table — with every stored row — has already been destroyed, so the
prior store is not left as it was; the rebuild happens in place, not in
a temporary store swapped in by rename. -/
theorem recreateDatabase_not_atomic :
    (RecreateDatabase dbBefore 3 (some .dropConfig)).1 =
      .error "failed to drop config table" ∧
    (RecreateDatabase dbBefore 3 (some .dropConfig)).2.documents = none ∧
    (RecreateDatabase dbBefore 3 (some .dropConfig)).2 ≠ dbBefore := by
  refine ⟨rfl, rfl, ?_⟩
  decide

/-- The commands whose interaction with the model check the claims
describe; the read-only show and stats commands and remove are omitted. -/
inductive Command where
  | add
  | search
  | reindex
deriving DecidableEq, Repr

/-- Reading a key from the config map; a missing key yields the empty
string, as a Go map access does. -/
def lookupConfig (cfg : List (String × String)) (key : String) : String :=
  match cfg.find? (fun kv => kv.1 == key) with
  | some kv => kv.2
  | none => ""

/-- The model comparison from main.go: the embedding_model stored in the
config table against the currently configured model. -/
def modelMismatch (stored : List (String × String))
    (cfgModel : String) : Bool :=
  !(lookupConfig stored "embedding_model" == cfgModel)

/-- How an invocation ends: an abort via os.Exit before the command
dispatch, or execution of the command. -/
inductive MainResult where
  | aborted
  | executed (c : Command)
deriving DecidableEq, Repr

/-- Port of the guard in main: on an existing (not freshly created)
store, and only for the add and search commands, compare the persisted
embedding_model with the configured one and abort on mismatch.  The
guard runs before the command switch, hence before any document row is
read or written. -/
def mainDispatch (isNew : Bool) (cmd : Command)
    (stored : List (String × String)) (cfgModel : String) : MainResult :=
  if !isNew && (cmd == .add || cmd == .search)
      && modelMismatch stored cfgModel then
    .aborted
  else
    .executed cmd

/-- The document-table effect of each dispatched command. -/
def commandEffect (w : World) (cmd : Command) (args : List String)
    (store : List Row) : List Row :=
  match cmd with
  | .add => args.foldl (fun s p => (AddDocument w s p).store) store
  | .search => store
  | .reindex => (Reindex w store).1

/-- An invocation of main: the guard first, then the command. -/
def mainRun (isNew : Bool) (cmd : Command)
    (stored : List (String × String)) (cfgModel : String) (w : World)
    (args : List String) (store : List Row) : MainResult × List Row :=
  match mainDispatch isNew cmd stored cfgModel with
  | .aborted => (.aborted, store)
  | .executed c => (.executed c, commandEffect w c args store)

/-- Claim C3: on an existing store whose persisted embedding_model
differs from the configured model, add and search abort before touching
any document (the table is returned unchanged), while reindex is never
subject to the check. -/
theorem modelCheck_gates_add_search (isNew : Bool) (cmd : Command)
    (stored : List (String × String)) (cfgModel : String) (w : World)
    (args : List String) (store : List Row)
    (h1 : isNew = false)
    (h2 : cmd = Command.add ∨ cmd = Command.search)
    (h3 : lookupConfig stored "embedding_model" ≠ cfgModel) :
    mainRun isNew cmd stored cfgModel w args store = (.aborted, store) ∧
    (∀ (isNew2 : Bool) (stored2 : List (String × String)) (m2 : String),
      mainDispatch isNew2 Command.reindex stored2 m2 =
        .executed Command.reindex) := by
  subst h1
  constructor
  · have hm : modelMismatch stored cfgModel = true := by
      simp only [modelMismatch, Bool.not_eq_true', beq_eq_false_iff_ne,
        ne_eq, decide_eq_true_eq]
      exact h3
    rcases h2 with h | h <;> subst h <;>
      simp [mainRun, mainDispatch, hm]
  · intro isNew2 s2 m2
    cases isNew2 <;> simp [mainDispatch]

/-- Witness for claim C3: a stored model m1 against a configured model
m2 aborts a search on an existing store and leaves the table alone. -/
theorem modelCheck_gates_add_search_witness :
    lookupConfig [("embedding_model", "m1")] "embedding_model" ≠ "m2" ∧
    mainRun false Command.search [("embedding_model", "m1")] "m2"
      wText [] [rowUnchanged] = (.aborted, [rowUnchanged]) :=
  ⟨by decide,
   (modelCheck_gates_add_search false Command.search
     [("embedding_model", "m1")] "m2" wText [] [rowUnchanged]
     rfl (Or.inr rfl) (by decide)).1⟩

/-- Ascending order on search rows by their distance column. -/
def distLE (a b : Row × Int) : Prop := a.2 ≤ b.2

instance : DecidableRel distLE :=
  fun a b => inferInstanceAs (Decidable (a.2 ≤ b.2))

instance : IsTotal (Row × Int) distLE :=
  ⟨fun a b => Int.le_total a.2 b.2⟩

instance : IsTrans (Row × Int) distLE :=
  ⟨fun _ _ _ h1 h2 => le_trans h1 h2⟩

/-- What one search invocation reports: the rows printed (with their
distances) and whether the No results found message was printed. -/
structure SearchOutput where
  results : List (Row × Int)
  noResultsReported : Bool
deriving Repr

/-- Port of SearchDocuments from internal/db/db.go: the vec0 query
computes a distance per stored row, orders ascending by distance and
applies LIMIT; the names and llm formats print the rows (counting them),
an unknown format is an error, and a zero count prints No results found
and still returns nil.  The vector-similarity engine is the black-box
collaborator, modelled by the distance function it assigns to each row
for the query embedding. -/
def SearchDocuments (dist : Row → Int) (store : List Row) (limit : Nat)
    (format : String) : Except String SearchOutput :=
  let table := store.map (fun r => (r, dist r))
  let rows := (List.insertionSort distLE table).take limit
  if format == "names" then
    .ok ⟨rows, decide (rows.length = 0)⟩
  else if format == "llm" then
    .ok ⟨rows, decide (rows.length = 0)⟩
  else
    .error ("unknown format: " ++ format)

/-- Claim C9: for either valid output format, search returns at most
limit rows in ascending distance order, never fails on an empty result
set, and reports no results exactly when the result set is empty. -/
theorem searchDocuments_limit_sorted (dist : Row → Int)
    (store : List Row) (limit : Nat) :
    (∃ out, SearchDocuments dist store limit "names" = .ok out ∧
      out.results.length ≤ limit ∧
      List.Sorted distLE out.results ∧
      (out.noResultsReported = true ↔ out.results = [])) ∧
    (∃ out, SearchDocuments dist store limit "llm" = .ok out ∧
      out.results.length ≤ limit ∧
      List.Sorted distLE out.results ∧
      (out.noResultsReported = true ↔ out.results = [])) := by
  have hlen : ((List.insertionSort distLE
      (store.map fun r => (r, dist r))).take limit).length ≤ limit := by
    rw [List.length_take]
    exact min_le_left _ _
  have hsort : List.Sorted distLE ((List.insertionSort distLE
      (store.map fun r => (r, dist r))).take limit) :=
    List.Pairwise.sublist (List.take_sublist _ _)
      (List.sorted_insertionSort distLE _)
  have hrep : ∀ rows : List (Row × Int),
      (decide (rows.length = 0) = true ↔ rows = []) := by
    intro rows
    simp [List.length_eq_zero]
  exact ⟨⟨_, rfl, hlen, hsort, hrep _⟩, ⟨_, rfl, hlen, hsort, hrep _⟩⟩

/-- Folding one search result into the fused accumulator: if the path is
already present, lower its distance to the minimum of the two, otherwise
append the result. -/
def insertResult (acc : List (String × Int)) (r : String × Int) :
    List (String × Int) :=
  if acc.any (fun x => x.1 == r.1) then
    acc.map (fun x => if x.1 == r.1 then (x.1, min x.2 r.2) else x)
  else
    acc ++ [r]

/-- Modelled from the spec: the multi-query Search Fusion Engine of
section 4.4, which no file under src implements (every SearchDocuments
variant takes a single query embedding) — concatenate the per-query
result sets, then deduplicate by document identity (path), keeping for
each path only the minimum distance across all occurrences. -/
def searchFusion (resultSets : List (List (String × Int))) :
    List (String × Int) :=
  resultSets.flatten.foldl insertResult []

/-- Running minimum over a list of distances, starting from an optional
already-seen minimum. -/
def foldMin : Option Int → List Int → Option Int
  | o, [] => o
  | none, d :: ds => foldMin (some d) ds
  | some m, d :: ds => foldMin (some (min m d)) ds

/-- Updating the entries of one path leaves the entries of a different
path untouched. -/
lemma filter_update_ne (acc : List (String × Int)) (p q : String)
    (d : Int) (hq : q ≠ p) :
    (acc.map (fun x => if x.1 == q then (x.1, min x.2 d) else x)).filter
        (fun x => x.1 == p) =
      acc.filter (fun x => x.1 == p) := by
  induction acc with
  | nil => rfl
  | cons x xs ih =>
      by_cases hx : x.1 = p <;> by_cases hxq : x.1 = q <;>
        simp_all [List.filter_cons, List.map_cons]

/-- Updating the entries of a path maps exactly its filtered entries. -/
lemma filter_update_eq (acc : List (String × Int)) (p : String)
    (d : Int) :
    (acc.map (fun x => if x.1 == p then (x.1, min x.2 d) else x)).filter
        (fun x => x.1 == p) =
      (acc.filter (fun x => x.1 == p)).map
        (fun x => (x.1, min x.2 d)) := by
  induction acc with
  | nil => rfl
  | cons x xs ih =>
      by_cases hx : x.1 = p <;>
        simp_all [List.filter_cons, List.map_cons]

/-- The fused entries for one path after folding a batch of results:
exactly one entry carrying the running minimum of every distance seen
for that path, or none when the path never occurred. -/
lemma foldl_insertResult_filter (p : String) :
    ∀ (L acc : List (String × Int)) (o : Option Int),
      acc.filter (fun x => x.1 == p) =
        (match o with | none => [] | some m => [(p, m)]) →
      (L.foldl insertResult acc).filter (fun x => x.1 == p) =
        (match foldMin o ((L.filter (fun x => x.1 == p)).map Prod.snd)
          with
         | none => [] | some m => [(p, m)]) := by
  intro L
  induction L with
  | nil =>
      intro acc o h
      cases o <;> simpa [foldMin] using h
  | cons r rest ih =>
      intro acc o h
      obtain ⟨q, d⟩ := r
      by_cases hq : q = p
      · subst hq
        cases o with
        | none =>
            have hany : acc.any (fun x => x.1 == q) = false := by
              rw [List.any_eq_false]
              intro x hx
              exact List.filter_eq_nil_iff.mp h x hx
            have hins : insertResult acc (q, d) = acc ++ [(q, d)] := by
              simp [insertResult, hany]
            rw [List.foldl_cons, hins]
            have hacc2 : (acc ++ [(q, d)]).filter
                (fun x => x.1 == q) = [(q, d)] := by
              rw [List.filter_append, h]
              simp
            rw [ih (acc ++ [(q, d)]) (some d) hacc2]
            simp [List.filter_cons, foldMin]
        | some m =>
            have hmem : (q, m) ∈ acc := by
              have : (q, m) ∈ acc.filter (fun x => x.1 == q) := by
                rw [h]
                exact List.mem_singleton_self _
              exact (List.mem_filter.mp this).1
            have hany : acc.any (fun x => x.1 == q) = true :=
              List.any_eq_true.2 ⟨(q, m), hmem, by simp⟩
            have hins : insertResult acc (q, d) =
                acc.map (fun x =>
                  if x.1 == q then (x.1, min x.2 d) else x) := by
              simp [insertResult, hany]
            rw [List.foldl_cons, hins]
            have hacc2 : (acc.map (fun x =>
                if x.1 == q then (x.1, min x.2 d) else x)).filter
                  (fun x => x.1 == q) = [(q, min m d)] := by
              rw [filter_update_eq, h]
              rfl
            rw [ih _ (some (min m d)) hacc2]
            simp [List.filter_cons, foldMin]
      · rw [List.foldl_cons]
        have hfilt : (insertResult acc (q, d)).filter
            (fun x => x.1 == p) = acc.filter (fun x => x.1 == p) := by
          rw [insertResult]
          split
          · exact filter_update_ne acc p q d hq
          · have hone : (([(q, d)] : List (String × Int)).filter
                (fun x => x.1 == p)) = [] := by
              simp [hq]
            rw [List.filter_append, hone, List.append_nil]
        rw [ih (insertResult acc (q, d)) o (hfilt.trans h)]
        have : (((q, d) :: rest).filter (fun x => x.1 == p)) =
            rest.filter (fun x => x.1 == p) := by
          simp [List.filter_cons, hq]
        rw [this]

/-- Claim C8 (spec-modelled fusion): when a document path occurs with
distance d1 in the first result set and d2 in the second (and nowhere
else), with d1 less than d2, the fused output contains that path exactly
once, carrying min(d1, d2) = d1. -/
theorem searchFusion_min_distance (s1 s2 : List (String × Int))
    (p : String) (d1 d2 : Int)
    (h : (s1 ++ s2).filter (fun x => x.1 == p) = [(p, d1), (p, d2)])
    (hlt : d1 < d2) :
    (searchFusion [s1, s2]).filter (fun x => x.1 == p) =
      [(p, min d1 d2)] ∧
    min d1 d2 = d1 := by
  constructor
  · have hjoin : ([s1, s2] : List (List (String × Int))).flatten =
        s1 ++ s2 := by
      simp
    rw [searchFusion, hjoin]
    have hmain := foldl_insertResult_filter p (s1 ++ s2) [] none rfl
    rw [h] at hmain
    simpa [foldMin] using hmain
  · exact min_eq_left (le_of_lt hlt)

/-- Witness for claim C8: two concrete result sets sharing the path a
with distances 3 and 5 fuse to a single entry for a with distance 3. -/
theorem searchFusion_min_distance_witness :
    (([("a", (3 : Int))] ++ [("a", 5), ("b", 1)]).filter
      (fun x => x.1 == "a")) = [("a", 3), ("a", 5)] ∧
    ((3 : Int) < 5) ∧
    (searchFusion [[("a", 3)], [("a", 5), ("b", 1)]]).filter
      (fun x => x.1 == "a") = [("a", min 3 5)] :=
  ⟨by decide, by decide,
   (searchFusion_min_distance [("a", 3)] [("a", 5), ("b", 1)] "a" 3 5
     (by decide) (by decide)).1⟩

end Refer
